import Mathlib

/-!
Shallow embedding of the NameNode coordination core of the
`distributed-file-system` repository (`src/namenode/metadata_manager.py`,
`src/namenode/chunk_manager.py`) and proofs about the spec's claims.

Modelling conventions:
* Python `dict`s (which preserve insertion order and have unique keys) are
  association lists `List (String × α)`; assignment `d[k] = v` keeps the
  position of an existing key and appends fresh keys at the end.
* Python `set`s of strings are `List String` kept duplicate-free by
  `setAdd`; only membership is ever observed by the verified claims.
* `time.time()` is an explicit `now : Nat` argument of each operation that
  reads the clock.
* `uuid.uuid4()` is an explicit `chunk_id` argument of `allocate_chunk`.
* Exceptions are `Except`.  Every `raise` in `metadata_manager.py` happens
  before any mutation, so operations return `(Except err result, state)`
  and the returned state equals the input state on the error path, exactly
  as in the source.
-/

namespace DFS

/-- `d.get(k)` / `d[k]` style lookup on an insertion-ordered dict. -/
def dictGet (d : List (String × α)) (k : String) : Option α :=
  match d with
  | [] => none
  | (k', v) :: rest => if k' = k then some v else dictGet rest k

/-- `d.get(k, dflt)`. -/
def dictGetD (d : List (String × α)) (k : String) (dflt : α) : α :=
  (dictGet d k).getD dflt

/-- `k in d`. -/
def containsKey (d : List (String × α)) (k : String) : Bool :=
  (dictGet d k).isSome

/-- `d[k] = v`: replace the binding in place if the key exists (dicts keep
the original position), otherwise append the new binding at the end. -/
def dictSet (d : List (String × α)) (k : String) (v : α) : List (String × α) :=
  match d with
  | [] => [(k, v)]
  | (k', v') :: rest => if k' = k then (k, v) :: rest else (k', v') :: dictSet rest k v

/-- In-place mutation `f` of the value stored at `k`, a no-op when `k` is
absent (the source always guards such mutations with `k in d`). -/
def dictUpdate (d : List (String × α)) (k : String) (f : α → α) : List (String × α) :=
  match d with
  | [] => []
  | (k', v) :: rest => if k' = k then (k, f v) :: rest else (k', v) :: dictUpdate rest k f

/-- `del d[k]` (no-op when absent; the source guards deletes with `in`). -/
def dictDel (d : List (String × α)) (k : String) : List (String × α) :=
  match d with
  | [] => []
  | (k', v) :: rest => if k' = k then dictDel rest k else (k', v) :: dictDel rest k

/-- `s.add(x)` on a Python set modelled as a duplicate-free list. -/
def setAdd (s : List String) (x : String) : List String :=
  if x ∈ s then s else s ++ [x]

/-- `s.discard(x)`. -/
def setDiscard (s : List String) (x : String) : List String :=
  match s with
  | [] => []
  | y :: ys => if y = x then setDiscard ys x else y :: setDiscard ys x

/-- `x in s`. -/
def setHas (s : List String) (x : String) : Bool :=
  match s with
  | [] => false
  | y :: ys => if y = x then true else setHas ys x

/-- `set(l)` built from a list. -/
def setOfList (l : List String) : List String :=
  l.foldl setAdd []

theorem dictGet_dictSet_self (d : List (String × α)) (k : String) (v : α) :
    dictGet (dictSet d k v) k = some v := by
  induction d with
  | nil => simp [dictGet, dictSet]
  | cons p rest ih =>
    obtain ⟨pk, pv⟩ := p
    by_cases hp : pk = k
    · simp [dictSet, dictGet, hp]
    · simp [dictSet, dictGet, hp, ih]

theorem dictGet_dictSet_ne (d : List (String × α)) (k k' : String) (v : α)
    (h : k' ≠ k) : dictGet (dictSet d k v) k' = dictGet d k' := by
  induction d with
  | nil => simp [dictGet, dictSet, Ne.symm h]
  | cons p rest ih =>
    obtain ⟨pk, pv⟩ := p
    by_cases hp : pk = k
    · subst hp
      simp [dictSet, dictGet, Ne.symm h]
    · simp [dictSet, dictGet, hp, ih]

theorem dictGet_dictUpdate (d : List (String × α)) (k k' : String) (f : α → α) :
    dictGet (dictUpdate d k f) k' =
      if k' = k then (dictGet d k').map f else dictGet d k' := by
  induction d with
  | nil => simp [dictGet, dictUpdate]
  | cons p rest ih =>
    obtain ⟨pk, pv⟩ := p
    by_cases hp : pk = k
    · subst hp
      by_cases hk : k' = pk
      · subst hk
        simp [dictUpdate, dictGet]
      · simp [dictUpdate, dictGet, hk, Ne.symm hk]
    · by_cases hp' : pk = k'
      · subst hp'
        simp [dictUpdate, dictGet, hp, Ne.symm hp]
      · simp [dictUpdate, dictGet, hp, hp', ih]

theorem dictGet_dictUpdate_self (d : List (String × α)) (k : String) (f : α → α) :
    dictGet (dictUpdate d k f) k = (dictGet d k).map f := by
  rw [dictGet_dictUpdate]
  simp

theorem dictGet_dictDel (d : List (String × α)) (k k' : String) :
    dictGet (dictDel d k) k' = if k' = k then none else dictGet d k' := by
  induction d with
  | nil => simp [dictGet, dictDel]
  | cons p rest ih =>
    obtain ⟨pk, pv⟩ := p
    by_cases hp : pk = k
    · subst hp
      by_cases hk : k' = pk
      · subst hk
        simpa [dictDel] using ih
      · simp [dictDel, dictGet, hk, Ne.symm hk, ih]
    · by_cases hp' : pk = k'
      · subst hp'
        simp [dictDel, dictGet, hp, Ne.symm hp]
      · simp [dictDel, dictGet, hp, hp', ih]

theorem setHas_setDiscard (s : List String) (x : String) :
    setHas (setDiscard s x) x = false := by
  induction s with
  | nil => simp [setHas, setDiscard]
  | cons y ys ih =>
    by_cases hy : y = x
    · simpa [setDiscard, hy] using ih
    · simp [setDiscard, setHas, hy, ih]

theorem setHas_setAdd_self (s : List String) (x : String) :
    setHas (setAdd s x) x = true := by
  have hmem : ∀ t : List String, x ∈ t → setHas t x = true := by
    intro t
    induction t with
    | nil => simp
    | cons y ys ih =>
      intro hm
      by_cases hy : y = x
      · simp [setHas, hy]
      · simp [setHas, hy]
        rcases List.mem_cons.mp hm with h | h
        · exact absurd h.symm hy
        · exact ih h
  by_cases hx : x ∈ s
  · simpa [setAdd, hx] using hmem s hx
  · exact hmem _ (by simp [setAdd, hx])

theorem setHas_eq_contains (s : List String) (x : String) :
    setHas s x = s.contains x := by
  induction s with
  | nil => simp [setHas]
  | cons y ys ih =>
    by_cases hy : y = x
    · simp [setHas, hy]
    · simp [setHas, hy, ih, Ne.symm hy]

theorem setHas_setAdd_ne (s : List String) (x y : String) (h : y ≠ x) :
    setHas (setAdd s x) y = setHas s y := by
  by_cases hx : x ∈ s
  · simp [setAdd, hx]
  · simp [setAdd, hx, setHas_eq_contains]
    intro hyx
    exact absurd hyx h

/-! ### `os.path.dirname` (posixpath) -/

/-- `posixpath.dirname`: take everything up to and including the last `/`
(`p[:p.rfind(sep)+1]`), then strip trailing slashes unless the head is
empty or consists only of slashes. -/
def dirnameChars (p : List Char) : List Char :=
  let head := (p.reverse.dropWhile (fun c => c ≠ '/')).reverse
  if head ≠ [] ∧ ¬ head.all (fun c => c = '/') then
    (head.reverse.dropWhile (fun c => c = '/')).reverse
  else head

/-- `os.path.dirname` on strings. -/
def dirname (p : String) : String := ⟨dirnameChars p.data⟩

/-! ### Data model (`common/messages.py`, `metadata_manager.py`) -/

/-- `ChunkInfo` dataclass from `common/messages.py`. -/
structure ChunkInfo where
  chunk_id : String
  size : Nat
  checksum : String
  replicas : List String
deriving Repr, DecidableEq

/-- `FileInfo` dataclass from `common/messages.py`. -/
structure FileInfo where
  path : String
  size : Nat
  chunks : List String
  created_at : Nat
  modified_at : Nat
  replication_factor : Nat
deriving Repr, DecidableEq

/-- `Directory` dataclass from `metadata_manager.py`. -/
structure Directory where
  path : String
  created_at : Nat
  modified_at : Nat
  children : List String
deriving Repr, DecidableEq

/-- Content of one JSON file under the persistence root: never written,
holding a complete snapshot, or left torn/partial because `json.dump`
raised part-way through a plain `open(path, 'w')` (the source writes
directly to the final path, with no temporary file or rename). -/
inductive WriteResult (α : Type) where
  | missing : WriteResult α
  | good : α → WriteResult α
  | torn : WriteResult α
deriving Repr, DecidableEq

/-- The three JSON documents `_persist_metadata` writes. -/
structure Disk where
  files_json : WriteResult (List (String × FileInfo))
  directories_json : WriteResult (List (String × Directory))
  chunks_json : WriteResult (List (String × ChunkInfo))
deriving Repr, DecidableEq

/-- Which, if any, of the three sequential snapshot writes inside
`_persist_metadata`'s `try` block raises an I/O error. -/
inductive PersistOutcome where
  | allOk
  | failOnFiles
  | failOnDirectories
  | failOnChunks
deriving Repr, DecidableEq

/-- In-memory state of `MetadataManager` plus its persistence directory. -/
structure MDState where
  files : List (String × FileInfo)
  directories : List (String × Directory)
  chunks : List (String × ChunkInfo)
  disk : Disk
deriving Repr, DecidableEq

/-- Exceptions raised by `MetadataManager` methods. -/
inductive MDError where
  | fileExistsError
  | fileNotFoundError
deriving Repr, DecidableEq

/-- `MetadataManager._persist_metadata`: writes `files.json`, then
`directories.json`, then `chunks.json`, each directly to its final path;
any exception is caught by the surrounding `try/except`, logged, and NOT
re-raised, so the method always returns normally and never touches the
in-memory maps. -/
def persistMetadata (st : MDState) (eff : PersistOutcome) : MDState :=
  match eff with
  | .failOnFiles =>
      { st with disk := { st.disk with files_json := .torn } }
  | .failOnDirectories =>
      { st with disk := { st.disk with files_json := .good st.files,
                                       directories_json := .torn } }
  | .failOnChunks =>
      { st with disk := { files_json := .good st.files,
                          directories_json := .good st.directories,
                          chunks_json := .torn } }
  | .allOk =>
      { st with disk := { files_json := .good st.files,
                          directories_json := .good st.directories,
                          chunks_json := .good st.chunks } }

/-- `MetadataManager.__init__` started against an empty persistence
directory: only the root directory `/` exists and `_load_metadata` finds
nothing on disk. -/
def initMetadata (now : Nat) : MDState :=
  { files := [],
    directories := [("/", { path := "/", created_at := now, modified_at := now,
                            children := [] })],
    chunks := [],
    disk := { files_json := .missing, directories_json := .missing,
              chunks_json := .missing } }

/-- `MetadataManager.create_file`. -/
def create_file (st : MDState) (path : String) (size replication_factor now : Nat)
    (eff : PersistOutcome) : Except MDError FileInfo × MDState :=
  if containsKey st.files path then
    (.error .fileExistsError, st)
  else
    let parent_path := dirname path
    if parent_path ≠ "/" ∧ containsKey st.directories parent_path = false then
      (.error .fileNotFoundError, st)
    else
      let file_info : FileInfo :=
        { path := path, size := size, chunks := [], created_at := now,
          modified_at := now, replication_factor := replication_factor }
      let files' := dictSet st.files path file_info
      let directories' :=
        if containsKey st.directories parent_path then
          dictUpdate st.directories parent_path
            (fun d => { d with children := setAdd d.children path, modified_at := now })
        else st.directories
      (.ok file_info,
        persistMetadata { st with files := files', directories := directories' } eff)

/-- `MetadataManager.get_file`. -/
def get_file (st : MDState) (path : String) : Option FileInfo :=
  dictGet st.files path

/-- `MetadataManager.delete_file`. -/
def delete_file (st : MDState) (path : String) (now : Nat) (eff : PersistOutcome) :
    Except MDError (List String) × MDState :=
  match dictGet st.files path with
  | none => (.error .fileNotFoundError, st)
  | some file_info =>
    let chunk_ids := file_info.chunks
    let files' := dictDel st.files path
    let parent_path := dirname path
    let directories' :=
      if containsKey st.directories parent_path then
        dictUpdate st.directories parent_path
          (fun d => { d with children := setDiscard d.children path, modified_at := now })
      else st.directories
    let chunks' := chunk_ids.foldl (fun cs cid => dictDel cs cid) st.chunks
    (.ok chunk_ids,
      persistMetadata
        { st with files := files', directories := directories', chunks := chunks' } eff)

/-- `MetadataManager.create_directory`. -/
def create_directory (st : MDState) (path : String) (now : Nat) (eff : PersistOutcome) :
    Except MDError Unit × MDState :=
  if containsKey st.directories path then
    (.error .fileExistsError, st)
  else
    let parent_path := dirname path
    if parent_path ≠ "/" ∧ containsKey st.directories parent_path = false then
      (.error .fileNotFoundError, st)
    else
      let directories' := dictSet st.directories path
        { path := path, created_at := now, modified_at := now, children := [] }
      let directories'' :=
        if containsKey directories' parent_path then
          dictUpdate directories' parent_path
            (fun d => { d with children := setAdd d.children path, modified_at := now })
        else directories'
      (.ok (), persistMetadata { st with directories := directories'' } eff)

/-- `MetadataManager.add_chunk`. -/
def add_chunk (st : MDState) (file_path : String) (chunk_info : ChunkInfo) (now : Nat)
    (eff : PersistOutcome) : Except MDError Unit × MDState :=
  if containsKey st.files file_path = false then
    (.error .fileNotFoundError, st)
  else
    let files' := dictUpdate st.files file_path
      (fun fi => { fi with chunks := fi.chunks ++ [chunk_info.chunk_id],
                           modified_at := now })
    let chunks' := dictSet st.chunks chunk_info.chunk_id chunk_info
    (.ok (), persistMetadata { st with files := files', chunks := chunks' } eff)

/-- `MetadataManager.get_chunk`. -/
def get_chunk (st : MDState) (chunk_id : String) : Option ChunkInfo :=
  dictGet st.chunks chunk_id

/-- `MetadataManager.update_chunk_replicas` (silently does nothing for an
unknown chunk id). -/
def update_chunk_replicas (st : MDState) (chunk_id : String) (replicas : List String)
    (eff : PersistOutcome) : MDState :=
  if containsKey st.chunks chunk_id then
    let chunks' := dictUpdate st.chunks chunk_id (fun ci => { ci with replicas := replicas })
    persistMetadata { st with chunks := chunks' } eff
  else st


/-! ### Cluster view (`chunk_manager.py`) -/

/-- `DataNodeInfo` dataclass from `chunk_manager.py` (a plain dataclass:
it has fields only, in particular no `get` method). -/
structure DataNodeInfo where
  node_id : String
  host : String
  port : Nat
  available_space : Nat
  used_space : Nat
  chunk_count : Nat
  last_heartbeat : Nat
  is_alive : Bool
deriving Repr, DecidableEq

/-- Mutable state of `ChunkManager`: the node table and the two
directions of the chunk-to-node index. -/
structure CMState where
  datanodes : List (String × DataNodeInfo)
  chunk_to_nodes : List (String × List String)
  node_to_chunks : List (String × List String)
deriving Repr, DecidableEq

/-- `ChunkManager.__init__`: all three maps start empty. -/
def initChunkManager : CMState :=
  { datanodes := [], chunk_to_nodes := [], node_to_chunks := [] }

/-- Runtime errors the embedded `ChunkManager` code can raise. -/
inductive PyRuntimeError where
  | keyError
  | attributeError
deriving Repr, DecidableEq

/-- `ChunkManager.register_datanode`: unconditionally overwrites the node
record (fresh stats, `is_alive=True` from the dataclass default,
`last_heartbeat=now`) and resets `node_to_chunks[node_id]` to an empty
set.  It does NOT touch `chunk_to_nodes`. -/
def register_datanode (st : CMState) (node_id host : String) (port now : Nat) :
    DataNodeInfo × CMState :=
  let datanode : DataNodeInfo :=
    { node_id := node_id, host := host, port := port, available_space := 0,
      used_space := 0, chunk_count := 0, last_heartbeat := now, is_alive := true }
  (datanode,
    { st with datanodes := dictSet st.datanodes node_id datanode,
              node_to_chunks := dictSet st.node_to_chunks node_id [] })

/-- `ChunkManager.update_datanode_info`: guarded by
`if node_id in self.datanodes`, so it is a no-op for unknown nodes; for a
known node it overwrites the three stats fields, sets
`last_heartbeat=now` and `is_alive=True`. -/
def update_datanode_info (st : CMState) (node_id : String)
    (available_space used_space chunk_count now : Nat) : CMState :=
  match dictGet st.datanodes node_id with
  | none => st
  | some datanode =>
      let datanode' :=
        { datanode with available_space := available_space,
                        used_space := used_space,
                        chunk_count := chunk_count,
                        last_heartbeat := now,
                        is_alive := true }
      { st with datanodes := dictSet st.datanodes node_id datanode' }

/-- The descending-by-available-space comparison under which Python's
stable `list.sort(key=lambda x: x[1], reverse=True)` sorts the
`(node_id, available_space)` pairs. -/
def availGe (a b : String × Nat) : Prop := b.2 ≤ a.2

instance : DecidableRel availGe := fun a b => Nat.decLe b.2 a.2

instance : IsTotal (String × Nat) availGe := ⟨fun a b => Nat.le_total b.2 a.2⟩

instance : IsTrans (String × Nat) availGe := ⟨fun _ _ _ h1 h2 => Nat.le_trans h2 h1⟩

/-- The `available_nodes` list built by
`ChunkManager._select_datanodes_for_chunk`: `(node_id, available_space)`
for every node with `is_alive` and `available_space >= size`, in the
iteration (= insertion) order of the `datanodes` dict. -/
def qualifyingNodes (st : CMState) (size : Nat) : List (String × Nat) :=
  st.datanodes.filterMap
    (fun p => if p.2.is_alive = true ∧ size ≤ p.2.available_space
              then some (p.1, p.2.available_space) else none)

/-- `ChunkManager._select_datanodes_for_chunk`: filter, stable-sort by
available space descending, take the first `replication_factor` ids.
`List.insertionSort availGe` is extensionally the same sort as Python's
stable descending Timsort: both orders are nonincreasing in the key and
both keep elements with equal keys in their original relative order
(which for a dict is registration order), and a stable sort's output is
uniquely determined by those two properties. -/
def select_datanodes_for_chunk (st : CMState) (size replication_factor : Nat) :
    List String :=
  ((List.insertionSort availGe (qualifyingNodes st size)).take replication_factor).map
    Prod.fst

/-- The loop `for node_id in selected_nodes:
self.node_to_chunks[node_id].add(chunk_id)` in `allocate_chunk`;
subscripting an absent key raises `KeyError`. -/
def nodeToChunksAddLoop (m : List (String × List String)) (nodes : List String)
    (chunk_id : String) : Except PyRuntimeError (List (String × List String)) :=
  match nodes with
  | [] => .ok m
  | n :: rest =>
      if containsKey m n then
        nodeToChunksAddLoop (dictUpdate m n (fun s => setAdd s chunk_id)) rest chunk_id
      else .error .keyError

/-- `ChunkManager.allocate_chunk`.  `chunk_id` stands for the fresh
`uuid.uuid4()` string.  The under-replication case (`len(selected) <
replication_factor`) only logs a warning; the chunk is created either
way.  (On the KeyError path - unreachable for states built by the public
operations - the partial mutation of `chunk_to_nodes` is discarded; no
verified claim depends on it.) -/
def allocate_chunk (st : CMState) (chunk_id : String) (size replication_factor : Nat) :
    Except PyRuntimeError ((String × List String) × CMState) :=
  let selected_nodes := select_datanodes_for_chunk st size replication_factor
  let chunk_to_nodes' := dictSet st.chunk_to_nodes chunk_id (setOfList selected_nodes)
  match nodeToChunksAddLoop st.node_to_chunks selected_nodes chunk_id with
  | .error e => .error e
  | .ok node_to_chunks' =>
      .ok ((chunk_id, selected_nodes),
        { st with chunk_to_nodes := chunk_to_nodes',
                  node_to_chunks := node_to_chunks' })

/-- `ChunkManager.report_chunk_stored`: adds both directions of the index
(creating empty sets for unseen keys first) and then pushes the fresh
location list into the chunk metadata via
`metadata_manager.update_chunk_replicas`. -/
def report_chunk_stored (cm : CMState) (md : MDState) (chunk_id node_id : String)
    (eff : PersistOutcome) : CMState × MDState :=
  let c2n0 := if containsKey cm.chunk_to_nodes chunk_id then cm.chunk_to_nodes
              else dictSet cm.chunk_to_nodes chunk_id []
  let c2n := dictUpdate c2n0 chunk_id (fun s => setAdd s node_id)
  let n2c0 := if containsKey cm.node_to_chunks node_id then cm.node_to_chunks
              else dictSet cm.node_to_chunks node_id []
  let n2c := dictUpdate n2c0 node_id (fun s => setAdd s chunk_id)
  let md' := update_chunk_replicas md chunk_id (dictGetD c2n chunk_id []) eff
  ({ cm with chunk_to_nodes := c2n, node_to_chunks := n2c }, md')

/-- The attribute access `chunk_info.replication_factor`: the `ChunkInfo`
dataclass in `common/messages.py` has only `chunk_id`, `size`, `checksum`
and `replicas`, so this access raises `AttributeError` whenever it is
evaluated. -/
def chunkInfoReplicationFactor (_ : ChunkInfo) : Except PyRuntimeError Nat :=
  .error .attributeError

/-- `ChunkManager._schedule_replication`: computes `current_replicas`,
looks the chunk up in the metadata store, and evaluates
`chunk_info and current_replicas < chunk_info.replication_factor`.
`chunk_info = None` short-circuits to a silent no-op; otherwise the
`replication_factor` attribute access raises.  The method never mutates
state (its success branch only logs). -/
def schedule_replication (cm : CMState) (md : MDState) (chunk_id : String) :
    Except PyRuntimeError Unit :=
  let _current_replicas := (dictGetD cm.chunk_to_nodes chunk_id []).length
  match get_chunk md chunk_id with
  | none => .ok ()
  | some chunk_info => do
      let _rf ← chunkInfoReplicationFactor chunk_info
      .ok ()

/-- The `for chunk_id in affected_chunks: self._schedule_replication(...)`
loop at the end of `handle_datanode_failure`; the first raising call
aborts the loop. -/
def scheduleReplicationLoop (cm : CMState) (md : MDState) :
    List String → Except PyRuntimeError Unit
  | [] => .ok ()
  | c :: rest => do
      let _ ← schedule_replication cm md c
      scheduleReplicationLoop cm md rest

/-- `ChunkManager.handle_datanode_failure`: early `return` (i.e. `None`)
for unknown nodes; otherwise sets `is_alive=False`, removes the node from
`chunk_to_nodes[c]` for every affected chunk `c`, empties
`node_to_chunks[node_id]` and then calls `_schedule_replication` for each
affected chunk.  The index mutations happen in place on `self` before the
loop, so they survive even when the loop raises; neither `return`
statement carries a value, so on a non-raising run the caller receives
`None` (`Except.ok none`), never a list of chunk ids. -/
def handle_datanode_failure (st : CMState) (md : MDState) (node_id : String) :
    CMState × Except PyRuntimeError (Option (List String)) :=
  match dictGet st.datanodes node_id with
  | none => (st, .ok none)
  | some datanode =>
    let datanodes' := dictSet st.datanodes node_id { datanode with is_alive := false }
    let affected_chunks := dictGetD st.node_to_chunks node_id []
    let chunk_to_nodes' := affected_chunks.foldl
      (fun m cid => dictUpdate m cid (fun s => setDiscard s node_id)) st.chunk_to_nodes
    let node_to_chunks' := dictSet st.node_to_chunks node_id []
    let st' := { st with datanodes := datanodes', chunk_to_nodes := chunk_to_nodes',
                         node_to_chunks := node_to_chunks' }
    (st', (scheduleReplicationLoop st' md affected_chunks).map (fun _ => none))

/-! ### The periodic replication sweep (`_monitor_replication`) -/

/-- The expression `self.datanodes.get(node_id, {}).get('is_alive', False)`
from `_monitor_replication`.  For an unregistered `node_id` the default
`{}` is returned and `dict.get` yields `False`; for a registered node the
lookup yields a `DataNodeInfo` dataclass instance, which has no `get`
attribute, so the attribute access raises `AttributeError`. -/
def getThenGetAlive (datanodes : List (String × DataNodeInfo)) (node_id : String) :
    Except PyRuntimeError Bool :=
  match dictGet datanodes node_id with
  | some _ => .error .attributeError
  | none => .ok false

/-- `alive_replicas = sum(1 for node_id in node_ids if ...)`: the
generator is consumed left to right and the first registered node id
raises out of the `sum`. -/
def sumAliveReplicas (datanodes : List (String × DataNodeInfo))
    (node_ids : List String) : Except PyRuntimeError Nat :=
  match node_ids with
  | [] => .ok 0
  | n :: rest => do
      let b ← getThenGetAlive datanodes n
      let s ← sumAliveReplicas datanodes rest
      pure ((if b then 1 else 0) + s)

/-- The `for chunk_id, node_ids in self.chunk_to_nodes.items():` loop of
`_monitor_replication` (the per-chunk under-replication check), returning
the chunk ids for which `_schedule_replication` is invoked.  An exception
anywhere aborts the whole loop into the `except` handler of the sweep. -/
def monitorChunksLoop (datanodes : List (String × DataNodeInfo)) (md : MDState) :
    List (String × List String) → Except PyRuntimeError (List String)
  | [] => .ok []
  | (chunk_id, node_ids) :: rest =>
      match get_chunk md chunk_id with
      | none => monitorChunksLoop datanodes md rest
      | some chunk_info => do
          let alive_replicas ← sumAliveReplicas datanodes node_ids
          let rf ← chunkInfoReplicationFactor chunk_info
          let scheduled ← monitorChunksLoop datanodes md rest
          pure (if alive_replicas < rf then chunk_id :: scheduled else scheduled)

/-- One pass of the under-replication half of
`ChunkManager._monitor_replication`. -/
def monitorReplicationPass (cm : CMState) (md : MDState) :
    Except PyRuntimeError (List String) :=
  monitorChunksLoop cm.datanodes md cm.chunk_to_nodes

/-- Lexicographic (code-point) comparison of strings as Python's `<=`
compares node IDs. -/
def charListLe : List Char → List Char → Bool
  | [], _ => true
  | _ :: _, [] => false
  | a :: as, b :: bs => if a < b then true else if b < a then false else charListLe as bs

/-- Modelled from the spec's words (Placement Policy): "sort by
available descending; tie-break by node ID ascending".  Defined only to
compare with the source's `_select_datanodes_for_chunk`. -/
def specTieBreakLe (a b : String × Nat) : Prop :=
  b.2 < a.2 ∨ (b.2 = a.2 ∧ charListLe a.1.data b.1.data = true)

instance : DecidableRel specTieBreakLe := fun a b =>
  inferInstanceAs (Decidable (b.2 < a.2 ∨ (b.2 = a.2 ∧ charListLe a.1.data b.1.data = true)))

/-- Modelled from the spec's words (Placement Policy): the placement
selection with the node-ID-ascending tie-break the spec describes. -/
def select_datanodes_spec (st : CMState) (size replication_factor : Nat) :
    List String :=
  ((List.insertionSort specTieBreakLe (qualifyingNodes st size)).take replication_factor).map
    Prod.fst

/-- Decidable equality for `Except`, needed to evaluate results of the
embedded operations inside closed theorems. -/
instance {ε α : Type} [DecidableEq ε] [DecidableEq α] : DecidableEq (Except ε α) :=
  fun a b =>
    match a, b with
    | .error e, .error f =>
        if h : e = f then .isTrue (congrArg Except.error h)
        else .isFalse (fun hh => h (by injection hh))
    | .error _, .ok _ => .isFalse (fun hh => Except.noConfusion hh)
    | .ok _, .error _ => .isFalse (fun hh => Except.noConfusion hh)
    | .ok x, .ok y =>
        if h : x = y then .isTrue (congrArg Except.ok h)
        else .isFalse (fun hh => h (by injection hh))

/-! ### Concrete reachable states used by witnesses and counterexamples -/

/-- A cluster with the single registered node `n1`. -/
def oneNodeState : CMState := (register_datanode initChunkManager "n1" "h" 1 0).2

/-- `n1` has additionally reported that it stores chunk `c1`. -/
def oneNodeOneChunkState : CMState :=
  (report_chunk_stored oneNodeState (initMetadata 0) "c1" "n1" .allOk).1

/-- A metadata store holding the single file `/f`. -/
def oneFileState : MDState := (create_file (initMetadata 0) "/f" 0 3 1 .allOk).2

/-- The chunk committed to `/f` in the witness scenarios. -/
def chunkC1 : ChunkInfo := { chunk_id := "c1", size := 5, checksum := "x", replicas := [] }

/-- `/f` with chunk `c1` appended and its metadata recorded. -/
def oneFileOneChunkState : MDState := (add_chunk oneFileState "/f" chunkC1 2 .allOk).2

/-- `n1` marked dead by `handle_datanode_failure`. -/
def deadNodeState : CMState := (handle_datanode_failure oneNodeState (initMetadata 0) "n1").1

/-- The record `handle_datanode_failure` leaves for `n1` in `deadNodeState`. -/
def deadNodeRecord : DataNodeInfo :=
  { node_id := "n1", host := "h", port := 1, available_space := 0, used_space := 0,
    chunk_count := 0, last_heartbeat := 0, is_alive := false }

/-- Nodes `b` then `a` registered in that order, both alive with the same
available space 100 - a placement tie. -/
def twoNodesTieState : CMState :=
  update_datanode_info
    (update_datanode_info
      ((register_datanode ((register_datanode initChunkManager "b" "h" 1 0).2) "a" "h" 1 0).2)
      "b" 100 0 0 1)
    "a" 100 0 0 1

/-! ### Theorems about the claims -/

/-- Projections of `_persist_metadata`: it only writes to disk. -/
theorem persistMetadata_files (st : MDState) (eff : PersistOutcome) :
    (persistMetadata st eff).files = st.files := by
  cases eff <;> rfl

/-- `_persist_metadata` leaves the in-memory directory map unchanged. -/
theorem persistMetadata_directories (st : MDState) (eff : PersistOutcome) :
    (persistMetadata st eff).directories = st.directories := by
  cases eff <;> rfl

/-- `_persist_metadata` leaves the in-memory chunk map unchanged. -/
theorem persistMetadata_chunks (st : MDState) (eff : PersistOutcome) :
    (persistMetadata st eff).chunks = st.chunks := by
  cases eff <;> rfl

/-- C1.  Code bug witness: the index-consistency invariant
`n ∈ chunk_to_nodes[c] iff c ∈ node_to_chunks[n]` is violated by a
reachable state.  Register `n1`, report chunk `c1` stored on `n1`, then
re-register `n1`: `register_datanode` resets `node_to_chunks["n1"]` to
the empty set but leaves `"n1"` inside `chunk_to_nodes["c1"]`, so
afterwards `n1 ∈ chunk_to_nodes[c1]` while `c1 ∉ node_to_chunks[n1]`. -/
theorem register_after_report_violates_index_consistency :
    setHas (dictGetD ((register_datanode oneNodeOneChunkState "n1" "h" 1 5).2).chunk_to_nodes "c1" []) "n1" = true ∧
    setHas (dictGetD ((register_datanode oneNodeOneChunkState "n1" "h" 1 5).2).node_to_chunks "n1" []) "c1" = false := by
  decide

/-- C6.  Code bug witness: `create_file` only checks `path in self.files`,
so a path that names an existing directory is NOT rejected: after
`create_directory("/d")`, `create_file("/d")` succeeds and `/d` is now
simultaneously a file and a directory, instead of raising
`FileExistsError` as the spec requires. -/
theorem create_file_accepts_existing_directory :
    containsKey ((create_directory (initMetadata 0) "/d" 1 .allOk).2).directories "/d" = true ∧
    (create_file ((create_directory (initMetadata 0) "/d" 1 .allOk).2) "/d" 0 3 2 .allOk).1 =
      .ok { path := "/d", size := 0, chunks := [], created_at := 2, modified_at := 2,
            replication_factor := 3 } ∧
    containsKey ((create_file ((create_directory (initMetadata 0) "/d" 1 .allOk).2) "/d" 0 3 2 .allOk).2).files "/d" = true := by
  decide

/-- C3 counterexample.  When the snapshot write of `files.json` fails
during `create_file`, no error surfaces to the caller (the result is
still `ok`), the in-memory state HAS been observably mutated (the new
file is in `files`), and the on-disk `files.json` is torn because the
source writes directly to the final path with no temp-file plus rename. -/
theorem persist_failure_not_surfaced_counterexample :
    (create_file (initMetadata 0) "/a" 0 3 1 .failOnFiles).1 =
      .ok { path := "/a", size := 0, chunks := [], created_at := 1, modified_at := 1,
            replication_factor := 3 } ∧
    dictGet ((create_file (initMetadata 0) "/a" 0 3 1 .failOnFiles).2).files "/a" =
      some { path := "/a", size := 0, chunks := [], created_at := 1, modified_at := 1,
             replication_factor := 3 } ∧
    ((create_file (initMetadata 0) "/a" 0 3 1 .failOnFiles).2).disk.files_json = .torn ∧
    ((create_file (initMetadata 0) "/a" 0 3 1 .failOnDirectories).2).disk.directories_json = .torn := by
  decide

/-- C7 counterexample.  Appending the same chunk ID twice via `add_chunk`
is NOT an error: the second call also returns success and the file's
chunk list ends up containing `c1` twice. -/
theorem add_chunk_duplicate_accepted_counterexample :
    (add_chunk oneFileOneChunkState "/f" chunkC1 3 .allOk).1 = .ok () ∧
    (dictGet ((add_chunk oneFileOneChunkState "/f" chunkC1 3 .allOk).2).files "/f").map
      FileInfo.chunks = some ["c1", "c1"] := by
  decide

/-- C5 counterexample.  `handle_datanode_failure` does not return the set
of affected chunk IDs: with `n1` hosting exactly chunk `c1` (a non-empty
affected set) the call returns Python's `None`, not `["c1"]`. -/
theorem handle_datanode_failure_returns_none_counterexample :
    dictGetD oneNodeOneChunkState.node_to_chunks "n1" [] = ["c1"] ∧
    (handle_datanode_failure oneNodeOneChunkState (initMetadata 0) "n1").2 = .ok none := by
  decide

/-- C2 counterexample.  With nodes registered in the order `b`, `a`, both
alive with equal available space, the source's placement (stable sort,
ties in dict order = registration order) picks `b`, while the spec's
tie-break by node ID ascending picks `a`. -/
theorem select_datanodes_tie_break_counterexample :
    select_datanodes_for_chunk twoNodesTieState 1 1 = ["b"] ∧
    select_datanodes_spec twoNodesTieState 1 1 = ["a"] ∧
    select_datanodes_for_chunk twoNodesTieState 1 1 ≠ select_datanodes_spec twoNodesTieState 1 1 := by
  decide

/-- A key whose lookup succeeds is among the dict's keys. -/
theorem mem_keys_of_containsKey (d : List (String × α)) (k : String)
    (h : containsKey d k = true) : k ∈ d.map Prod.fst := by
  induction d with
  | nil => simp [containsKey, dictGet] at h
  | cons p rest ih =>
    by_cases hp : p.1 = k
    · simp [hp]
    · simp only [containsKey, dictGet, hp, if_false] at h
      simp [ih h]

/-- A key whose lookup fails is not among the dict's keys. -/
theorem not_mem_keys_of_not_containsKey (d : List (String × α)) (k : String)
    (h : containsKey d k = false) : k ∉ d.map Prod.fst := by
  induction d with
  | nil => simp
  | cons p rest ih =>
    by_cases hp : p.1 = k
    · simp [containsKey, dictGet, hp] at h
    · simp only [containsKey, dictGet, hp, if_false] at h
      intro hmem
      rcases List.mem_cons.mp hmem with hh | hh
      · exact hp hh.symm
      · exact ih h hh

/-- `d[k] = v` keeps the key sequence unless `k` is fresh, in which case
`k` is appended. -/
theorem map_fst_dictSet (d : List (String × α)) (k : String) (v : α) :
    (dictSet d k v).map Prod.fst =
      if containsKey d k then d.map Prod.fst else d.map Prod.fst ++ [k] := by
  induction d with
  | nil => simp [dictSet, containsKey, dictGet]
  | cons p rest ih =>
    obtain ⟨pk, pv⟩ := p
    by_cases hp : pk = k
    · simp [dictSet, containsKey, dictGet, hp]
    · simp only [containsKey] at ih ⊢
      simp only [dictSet, hp, if_false, List.map_cons, dictGet]
      rw [ih]
      by_cases hc : (dictGet rest k).isSome = true <;> simp [hc]

/-- C8.  Frame and resurrection property of `update_datanode_info`: a call
for an unregistered node leaves the whole cluster state unchanged; for a
registered node it rewrites exactly that node's record with the three
stats fields, `last_heartbeat = now` and `is_alive = true` (so a dead
node is resurrected), leaving every other node and both index maps
untouched. -/
theorem update_datanode_info_frame (st : CMState) (n : String) (a u c now : Nat) :
    (dictGet st.datanodes n = none → update_datanode_info st n a u c now = st) ∧
    (∀ dn, dictGet st.datanodes n = some dn →
      dictGet (update_datanode_info st n a u c now).datanodes n =
        some { dn with available_space := a, used_space := u, chunk_count := c,
                       last_heartbeat := now, is_alive := true } ∧
      (∀ m, m ≠ n → dictGet (update_datanode_info st n a u c now).datanodes m =
        dictGet st.datanodes m) ∧
      (update_datanode_info st n a u c now).chunk_to_nodes = st.chunk_to_nodes ∧
      (update_datanode_info st n a u c now).node_to_chunks = st.node_to_chunks) := by
  constructor
  · intro h
    simp [update_datanode_info, h]
  · intro dn h
    refine ⟨?_, ?_, ?_, ?_⟩
    · simp [update_datanode_info, h, dictGet_dictSet_self]
    · intro m hm
      simp only [update_datanode_info, h]
      exact dictGet_dictSet_ne _ _ _ _ hm
    · simp [update_datanode_info, h]
    · simp [update_datanode_info, h]

/-- C8 witness: the node `n1`, dead in `deadNodeState`, is resurrected
with the new stats by a successful `update_datanode_info`. -/
theorem update_datanode_info_frame_witness :
    dictGet deadNodeState.datanodes "n1" = some deadNodeRecord ∧
    deadNodeRecord.is_alive = false ∧
    dictGet (update_datanode_info deadNodeState "n1" 7 8 9 10).datanodes "n1" =
      some { deadNodeRecord with
              available_space := 7, used_space := 8, chunk_count := 9,
              last_heartbeat := 10, is_alive := true } :=
  ⟨by decide, by decide,
    ((update_datanode_info_frame deadNodeState "n1" 7 8 9 10).2 deadNodeRecord (by decide)).1⟩

/-- Setting a key keeps the key sequence duplicate-free. -/
theorem nodup_keys_dictSet (d : List (String × α)) (k : String) (v : α)
    (hnd : (d.map Prod.fst).Nodup) : ((dictSet d k v).map Prod.fst).Nodup := by
  rw [map_fst_dictSet]
  by_cases hc : containsKey d k
  · simpa [hc] using hnd
  · have hm := not_mem_keys_of_not_containsKey d k (by simpa using hc)
    simp [hc, List.nodup_append, hnd, hm]

/-- C9.  Registration idempotence: registering `n` twice (with possibly
different host/port) leaves a single entry keyed by `n` that carries the
second registration's host, port and heartbeat timestamp, with
`is_alive = true` and zeroed stats; the node table has no duplicate
entry for `n`. -/
theorem register_datanode_idempotent (st : CMState) (n h1 h2 : String)
    (p1 t1 p2 t2 : Nat) (hnd : (st.datanodes.map Prod.fst).Nodup) :
    dictGet ((register_datanode ((register_datanode st n h1 p1 t1).2) n h2 p2 t2).2).datanodes n =
      some { node_id := n, host := h2, port := p2, available_space := 0, used_space := 0,
             chunk_count := 0, last_heartbeat := t2, is_alive := true } ∧
    (((register_datanode ((register_datanode st n h1 p1 t1).2) n h2 p2 t2).2).datanodes.map
      Prod.fst).Nodup ∧
    (((register_datanode ((register_datanode st n h1 p1 t1).2) n h2 p2 t2).2).datanodes.map
      Prod.fst).count n = 1 := by
  have hnd2 : (((register_datanode ((register_datanode st n h1 p1 t1).2) n h2 p2 t2).2).datanodes.map
      Prod.fst).Nodup := by
    simp only [register_datanode]
    exact nodup_keys_dictSet _ _ _ (nodup_keys_dictSet _ _ _ hnd)
  refine ⟨?_, hnd2, ?_⟩
  · simp [register_datanode, dictGet_dictSet_self]
  · refine List.count_eq_one_of_mem hnd2 ?_
    refine mem_keys_of_containsKey _ _ ?_
    simp [register_datanode, containsKey, dictGet_dictSet_self]

/-- C9 witness: registering `n1` twice on the empty cluster. -/
theorem register_datanode_idempotent_witness :
    dictGet ((register_datanode ((register_datanode initChunkManager "n1" "hA" 1 2).2) "n1" "hB" 3 4).2).datanodes "n1" =
      some { node_id := "n1", host := "hB", port := 3, available_space := 0, used_space := 0,
             chunk_count := 0, last_heartbeat := 4, is_alive := true } ∧
    (((register_datanode ((register_datanode initChunkManager "n1" "hA" 1 2).2) "n1" "hB" 3 4).2).datanodes.map
      Prod.fst).count "n1" = 1 := by
  have h := register_datanode_idempotent initChunkManager "n1" "hA" "hB" 1 2 3 4 (by decide)
  exact ⟨h.1, h.2.2⟩


/-- Deleting a list of keys in sequence removes exactly those keys. -/
theorem dictGet_foldl_dictDel (ids : List String) (d : List (String × α)) (k : String) :
    dictGet (ids.foldl (fun cs cid => dictDel cs cid) d) k =
      if k ∈ ids then none else dictGet d k := by
  induction ids generalizing d with
  | nil => simp
  | cons c rest ih =>
    simp only [List.foldl_cons]
    rw [ih]
    by_cases hk : k ∈ rest
    · simp [hk]
    · by_cases hc : k = c
      · simp [hk, hc, dictGet_dictDel]
      · simp [hk, hc, dictGet_dictDel]

/-- C4.  `delete_file` postconditions: for a path naming a file, the call
returns exactly the file's chunk-ID list, the file entry disappears
(`get_file` yields nothing), the path is gone from its parent directory's
children, and every chunk ID that was listed in the file no longer
resolves via `get_chunk`; for a path naming no file, the call raises
`FileNotFoundError` and the state is returned unchanged. -/
theorem delete_file_postconditions (st : MDState) (p : String) (now : Nat)
    (eff : PersistOutcome) :
    (∀ fi, dictGet st.files p = some fi →
      (delete_file st p now eff).1 = .ok fi.chunks ∧
      get_file (delete_file st p now eff).2 p = none ∧
      (∀ d, dictGet ((delete_file st p now eff).2).directories (dirname p) = some d →
        setHas d.children p = false) ∧
      (∀ cid, cid ∈ fi.chunks → get_chunk (delete_file st p now eff).2 cid = none)) ∧
    (dictGet st.files p = none →
      delete_file st p now eff = (.error .fileNotFoundError, st)) := by
  constructor
  · intro fi h
    refine ⟨?_, ?_, ?_, ?_⟩
    · simp [delete_file, h]
    · simp [delete_file, h, get_file, persistMetadata_files, dictGet_dictDel]
    · intro d hd
      simp only [delete_file, h] at hd
      rw [persistMetadata_directories] at hd
      by_cases hc : containsKey st.directories (dirname p) = true
      · rw [if_pos hc, dictGet_dictUpdate_self] at hd
        cases hg : dictGet st.directories (dirname p) with
        | none =>
            rw [hg] at hd
            simp at hd
        | some d0 =>
            rw [hg] at hd
            simp only [Option.map_some'] at hd
            rw [← Option.some.inj hd]
            exact setHas_setDiscard d0.children p
      · rw [if_neg hc] at hd
        have hck : containsKey st.directories (dirname p) = true := by
          simp [containsKey, hd]
        exact absurd hck hc
    · intro cid hcid
      simp [delete_file, h, get_chunk, persistMetadata_chunks, dictGet_foldl_dictDel, hcid]
  · intro h
    simp [delete_file, h]

/-- C4 witness: deleting `/f` (one chunk `c1`) from a concrete state. -/
theorem delete_file_postconditions_witness :
    (delete_file oneFileOneChunkState "/f" 5 .allOk).1 = .ok ["c1"] ∧
    get_file (delete_file oneFileOneChunkState "/f" 5 .allOk).2 "/f" = none ∧
    get_chunk (delete_file oneFileOneChunkState "/f" 5 .allOk).2 "c1" = none := by
  have h := (delete_file_postconditions oneFileOneChunkState "/f" 5 .allOk).1
    { path := "/f", size := 0, chunks := ["c1"], created_at := 1, modified_at := 2,
      replication_factor := 3 }
    (by decide)
  exact ⟨h.1, h.2.1, h.2.2.2 "c1" (by decide)⟩

/-- C7 (amended).  `add_chunk` on an existing file appends the chunk ID
unconditionally - with no duplicate check, so a repeated ID is simply
appended again - records the chunk metadata and bumps the modification
time, leaving other files untouched; on a missing file it raises
`FileNotFoundError` with the state unchanged. -/
theorem add_chunk_behavior (st : MDState) (p : String) (ci : ChunkInfo) (now : Nat)
    (eff : PersistOutcome) :
    (∀ fi, dictGet st.files p = some fi →
      (add_chunk st p ci now eff).1 = .ok () ∧
      dictGet ((add_chunk st p ci now eff).2).files p =
        some { fi with chunks := fi.chunks ++ [ci.chunk_id], modified_at := now } ∧
      get_chunk (add_chunk st p ci now eff).2 ci.chunk_id = some ci ∧
      (∀ q, q ≠ p → dictGet ((add_chunk st p ci now eff).2).files q = dictGet st.files q)) ∧
    (dictGet st.files p = none →
      add_chunk st p ci now eff = (.error .fileNotFoundError, st)) := by
  constructor
  · intro fi h
    have hc : containsKey st.files p = true := by simp [containsKey, h]
    refine ⟨?_, ?_, ?_, ?_⟩
    · simp [add_chunk, hc]
    · simp [add_chunk, hc, persistMetadata_files, dictGet_dictUpdate, h]
    · simp [add_chunk, hc, get_chunk, persistMetadata_chunks, dictGet_dictSet_self]
    · intro q hq
      simp only [add_chunk, hc, Bool.true_eq_false, if_false]
      rw [persistMetadata_files, dictGet_dictUpdate]
      simp [hq]
  · intro h
    have hc : containsKey st.files p = false := by simp [containsKey, h]
    simp [add_chunk, hc]

/-- C7 witness: committing chunk `c1` to the file `/f`. -/
theorem add_chunk_behavior_witness :
    (add_chunk oneFileState "/f" chunkC1 2 .allOk).1 = .ok () ∧
    get_chunk (add_chunk oneFileState "/f" chunkC1 2 .allOk).2 "c1" = some chunkC1 := by
  have h := (add_chunk_behavior oneFileState "/f" chunkC1 2 .allOk).1
    { path := "/f", size := 0, chunks := [], created_at := 1, modified_at := 1,
      replication_factor := 3 }
    (by decide)
  exact ⟨h.1, h.2.2.1⟩


/-- C3 (amended).  Persistence failures are invisible to callers: for
every mutating metadata operation, both the returned
`Except` value and the resulting in-memory maps (`files`, `directories`,
`chunks`) are identical whether the snapshot write succeeds or fails in
any of its three stages - the exception is swallowed inside
`_persist_metadata` and the in-memory mutation is retained. -/
theorem mutating_ops_ignore_persist_failure (st : MDState) (p : String)
    (size rf now : Nat) (ci : ChunkInfo) (reps : List String) (eff : PersistOutcome) :
    ((create_file st p size rf now eff).1 = (create_file st p size rf now .allOk).1 ∧
     ((create_file st p size rf now eff).2).files = ((create_file st p size rf now .allOk).2).files ∧
     ((create_file st p size rf now eff).2).directories = ((create_file st p size rf now .allOk).2).directories ∧
     ((create_file st p size rf now eff).2).chunks = ((create_file st p size rf now .allOk).2).chunks) ∧
    ((delete_file st p now eff).1 = (delete_file st p now .allOk).1 ∧
     ((delete_file st p now eff).2).files = ((delete_file st p now .allOk).2).files ∧
     ((delete_file st p now eff).2).directories = ((delete_file st p now .allOk).2).directories ∧
     ((delete_file st p now eff).2).chunks = ((delete_file st p now .allOk).2).chunks) ∧
    ((create_directory st p now eff).1 = (create_directory st p now .allOk).1 ∧
     ((create_directory st p now eff).2).files = ((create_directory st p now .allOk).2).files ∧
     ((create_directory st p now eff).2).directories = ((create_directory st p now .allOk).2).directories ∧
     ((create_directory st p now eff).2).chunks = ((create_directory st p now .allOk).2).chunks) ∧
    ((add_chunk st p ci now eff).1 = (add_chunk st p ci now .allOk).1 ∧
     ((add_chunk st p ci now eff).2).files = ((add_chunk st p ci now .allOk).2).files ∧
     ((add_chunk st p ci now eff).2).directories = ((add_chunk st p ci now .allOk).2).directories ∧
     ((add_chunk st p ci now eff).2).chunks = ((add_chunk st p ci now .allOk).2).chunks) ∧
    ((update_chunk_replicas st p reps eff).files = (update_chunk_replicas st p reps .allOk).files ∧
     (update_chunk_replicas st p reps eff).directories = (update_chunk_replicas st p reps .allOk).directories ∧
     (update_chunk_replicas st p reps eff).chunks = (update_chunk_replicas st p reps .allOk).chunks) := by
  refine ⟨?_, ?_, ?_, ?_, ?_⟩
  · by_cases h1 : containsKey st.files p = true
    · simp [create_file, h1]
    · by_cases h2 : dirname p ≠ "/" ∧ containsKey st.directories (dirname p) = false
      · simp [create_file, h1, h2]
      · simp [create_file, h1, h2, persistMetadata_files, persistMetadata_directories,
          persistMetadata_chunks]
  · cases h : dictGet st.files p with
    | none => simp [delete_file, h]
    | some fi =>
        simp [delete_file, h, persistMetadata_files, persistMetadata_directories,
          persistMetadata_chunks]
  · by_cases h1 : containsKey st.directories p = true
    · simp [create_directory, h1]
    · by_cases h2 : dirname p ≠ "/" ∧ containsKey st.directories (dirname p) = false
      · simp [create_directory, h1, h2]
      · simp [create_directory, h1, h2, persistMetadata_files, persistMetadata_directories,
          persistMetadata_chunks]
  · by_cases h1 : containsKey st.files p = false
    · simp [add_chunk, h1]
    · simp [add_chunk, h1, persistMetadata_files, persistMetadata_directories,
        persistMetadata_chunks]
  · by_cases h1 : containsKey st.chunks p = true
    · simp [update_chunk_replicas, h1, persistMetadata_files, persistMetadata_directories,
        persistMetadata_chunks]
    · simp [update_chunk_replicas, h1]

/-- Frame of the discard loop in `handle_datanode_failure`: a chunk id
outside the affected set keeps its node set. -/
theorem dictGet_foldl_discard_not_mem (ids : List String)
    (m : List (String × List String)) (n c : String) (hc : c ∉ ids) :
    dictGet (ids.foldl (fun acc cid => dictUpdate acc cid (fun s => setDiscard s n)) m) c =
      dictGet m c := by
  induction ids generalizing m with
  | nil => simp
  | cons a rest ih =>
    simp only [List.foldl_cons]
    have hca : ¬ c = a := fun hh => hc (by simp [hh])
    have hcr : c ∉ rest := fun hh => hc (by simp [hh])
    rw [ih _ hcr, dictGet_dictUpdate]
    simp [hca]

/-- Effect of the discard loop in `handle_datanode_failure`: the failed
node is gone from the node set of every affected chunk. -/
theorem setHas_foldl_discard_mem (ids : List String)
    (m : List (String × List String)) (n c : String) (hc : c ∈ ids) :
    setHas (dictGetD
      (ids.foldl (fun acc cid => dictUpdate acc cid (fun s => setDiscard s n)) m) c []) n =
      false := by
  induction ids generalizing m with
  | nil => simp at hc
  | cons a rest ih =>
    simp only [List.foldl_cons]
    by_cases hcr : c ∈ rest
    · exact ih _ hcr
    · have hca : c = a := by
        rcases List.mem_cons.mp hc with h | h
        · exact h
        · exact absurd h hcr
      subst hca
      rw [dictGetD, dictGet_foldl_discard_not_mem rest _ n c hcr, dictGet_dictUpdate_self]
      cases hg : dictGet m c with
      | none => simp [setHas]
      | some s => simp [setHas_setDiscard]

/-- The re-replication loop at the end of `handle_datanode_failure`
either completes silently or aborts with the `AttributeError` raised by
`chunk_info.replication_factor` inside `_schedule_replication`. -/
theorem scheduleReplicationLoop_ok_or_attrError (cm : CMState) (md : MDState)
    (ids : List String) :
    scheduleReplicationLoop cm md ids = .ok () ∨
    scheduleReplicationLoop cm md ids = .error .attributeError := by
  induction ids with
  | nil => left; rfl
  | cons c rest ih =>
    cases hg : get_chunk md c with
    | none =>
        have hstep : scheduleReplicationLoop cm md (c :: rest) =
            scheduleReplicationLoop cm md rest := by
          simp [scheduleReplicationLoop, schedule_replication, hg, Bind.bind, Except.bind]
        rw [hstep]
        exact ih
    | some ci =>
        right
        simp [scheduleReplicationLoop, schedule_replication, hg, chunkInfoReplicationFactor,
          Bind.bind, Except.bind]

/-- C5 (amended).  `handle_datanode_failure` on a registered node flips
its liveness flag to false, empties `node_to_chunks[n]`, removes `n`
from `chunk_to_nodes[c]` for exactly the chunks previously hosted on `n`
(other chunks keep their node sets), but never returns the affected
chunk set: the call evaluates to Python's `None` - or raises
`AttributeError` out of `_schedule_replication` when an affected chunk
has chunk metadata, the state mutations having already been applied.
For an unregistered node it is a no-op returning `None`. -/
theorem handle_datanode_failure_behavior (st : CMState) (md : MDState) (n : String) :
    (dictGet st.datanodes n = none → handle_datanode_failure st md n = (st, .ok none)) ∧
    (∀ dn, dictGet st.datanodes n = some dn →
      dictGet ((handle_datanode_failure st md n).1).datanodes n =
        some { dn with is_alive := false } ∧
      dictGet ((handle_datanode_failure st md n).1).node_to_chunks n = some [] ∧
      (∀ c, c ∈ dictGetD st.node_to_chunks n [] →
        setHas (dictGetD ((handle_datanode_failure st md n).1).chunk_to_nodes c []) n = false) ∧
      (∀ c, c ∉ dictGetD st.node_to_chunks n [] →
        dictGet ((handle_datanode_failure st md n).1).chunk_to_nodes c =
          dictGet st.chunk_to_nodes c) ∧
      ((handle_datanode_failure st md n).2 = .ok none ∨
       (handle_datanode_failure st md n).2 = .error .attributeError)) := by
  constructor
  · intro h
    simp [handle_datanode_failure, h]
  · intro dn h
    refine ⟨?_, ?_, ?_, ?_, ?_⟩
    · simp [handle_datanode_failure, h, dictGet_dictSet_self]
    · simp [handle_datanode_failure, h, dictGet_dictSet_self]
    · intro c hc
      simp only [handle_datanode_failure, h]
      exact setHas_foldl_discard_mem _ _ _ _ hc
    · intro c hc
      simp only [handle_datanode_failure, h]
      exact dictGet_foldl_discard_not_mem _ _ _ _ hc
    · simp only [handle_datanode_failure, h]
      rcases scheduleReplicationLoop_ok_or_attrError
        { st with
            datanodes := dictSet st.datanodes n { dn with is_alive := false },
            chunk_to_nodes := (dictGetD st.node_to_chunks n []).foldl
              (fun m cid => dictUpdate m cid (fun s => setDiscard s n)) st.chunk_to_nodes,
            node_to_chunks := dictSet st.node_to_chunks n [] }
        md (dictGetD st.node_to_chunks n []) with hok | herr
      · left
        simp [hok, Except.map]
      · right
        simp [herr, Except.map]

/-- C5 witness: failing `n1`, which hosts `c1` (no chunk metadata), in
the concrete two-map state. -/
theorem handle_datanode_failure_behavior_witness :
    dictGet ((handle_datanode_failure oneNodeOneChunkState (initMetadata 0) "n1").1).node_to_chunks "n1" = some [] ∧
    setHas (dictGetD ((handle_datanode_failure oneNodeOneChunkState (initMetadata 0) "n1").1).chunk_to_nodes "c1" []) "n1" = false := by
  have h := (handle_datanode_failure_behavior oneNodeOneChunkState (initMetadata 0) "n1").2
    { node_id := "n1", host := "h", port := 1, available_space := 0, used_space := 0,
      chunk_count := 0, last_heartbeat := 0, is_alive := true }
    (by decide)
  exact ⟨h.2.1, h.2.2.1 "c1" (by decide)⟩


/-- The alive-replica sum raises `AttributeError` as soon as the
generator reaches a registered node id. -/
theorem sumAliveReplicas_error_of_registered (datanodes : List (String × DataNodeInfo))
    (node_ids : List String) (h : ∃ n ∈ node_ids, containsKey datanodes n = true) :
    sumAliveReplicas datanodes node_ids = .error .attributeError := by
  induction node_ids with
  | nil => simp at h
  | cons m rest ih =>
    cases hg : dictGet datanodes m with
    | some dn =>
        simp [sumAliveReplicas, getThenGetAlive, hg, Bind.bind, Except.bind]
    | none =>
        obtain ⟨n, hn, hreg⟩ := h
        rcases List.mem_cons.mp hn with rfl | hn'
        · simp [containsKey, hg] at hreg
        · have hrest := ih ⟨n, hn', hreg⟩
          simp [sumAliveReplicas, getThenGetAlive, hg, hrest, Bind.bind, Except.bind]

/-- The only outcomes of the alive-replica sum: a number, or the
`AttributeError` from the `.get` attribute access. -/
theorem sumAliveReplicas_ok_or_attrError (datanodes : List (String × DataNodeInfo))
    (node_ids : List String) :
    (∃ k, sumAliveReplicas datanodes node_ids = .ok k) ∨
    sumAliveReplicas datanodes node_ids = .error .attributeError := by
  induction node_ids with
  | nil => exact Or.inl ⟨0, rfl⟩
  | cons m rest ih =>
    cases hg : dictGet datanodes m with
    | some dn =>
        right
        simp [sumAliveReplicas, getThenGetAlive, hg, Bind.bind, Except.bind]
    | none =>
        rcases ih with ⟨k, hk⟩ | herr
        · left
          refine ⟨k, ?_⟩
          simp [sumAliveReplicas, getThenGetAlive, hg, hk, Bind.bind, Except.bind, pure,
            Except.pure]
        · right
          simp [sumAliveReplicas, getThenGetAlive, hg, herr, Bind.bind, Except.bind]

/-- Any chunk with recorded metadata aborts the per-chunk loop of the
sweep with `AttributeError` (either from the alive-replica sum or from
the `replication_factor` access). -/
theorem monitorChunksLoop_error (datanodes : List (String × DataNodeInfo)) (md : MDState)
    (l : List (String × List String)) (h : ∃ e ∈ l, (get_chunk md e.1).isSome = true) :
    monitorChunksLoop datanodes md l = .error .attributeError := by
  induction l with
  | nil => simp at h
  | cons e rest ih =>
    obtain ⟨cid, node_ids⟩ := e
    cases hg : get_chunk md cid with
    | some ci =>
        rcases sumAliveReplicas_ok_or_attrError datanodes node_ids with ⟨k, hk⟩ | herr
        · simp [monitorChunksLoop, hg, hk, chunkInfoReplicationFactor, Bind.bind, Except.bind]
        · simp [monitorChunksLoop, hg, herr, Bind.bind, Except.bind]
    | none =>
        obtain ⟨e', he', hsome⟩ := h
        rcases List.mem_cons.mp he' with rfl | he''
        · rw [hg] at hsome
          simp at hsome
        · simp only [monitorChunksLoop, hg]
          exact ih ⟨e', he'', hsome⟩

/-- C10.  In the periodic sweep `_monitor_replication`, for any chunk of
`chunk_to_nodes` that has chunk metadata and hosts at least one
registered node id, the alive-replica count
`self.datanodes.get(node_id, {}).get('is_alive', False)` raises
`AttributeError` (a `DataNodeInfo` dataclass has no `get` method), the
whole per-chunk loop aborts into the sweep's `except` handler, and
`_schedule_replication` is never invoked from this periodic path. -/
theorem monitor_replication_sweep_attribute_error (cm : CMState) (md : MDState)
    (cid : String) (node_ids : List String) (n : String)
    (hmem : (cid, node_ids) ∈ cm.chunk_to_nodes)
    (hmeta : (get_chunk md cid).isSome = true)
    (hn : n ∈ node_ids) (hreg : containsKey cm.datanodes n = true) :
    sumAliveReplicas cm.datanodes node_ids = .error .attributeError ∧
    monitorReplicationPass cm md = .error .attributeError ∧
    (∀ scheduled : List String, monitorReplicationPass cm md ≠ .ok scheduled) := by
  have hpass : monitorReplicationPass cm md = .error .attributeError :=
    monitorChunksLoop_error cm.datanodes md cm.chunk_to_nodes ⟨(cid, node_ids), hmem, hmeta⟩
  refine ⟨sumAliveReplicas_error_of_registered _ _ ⟨n, hn, hreg⟩, hpass, ?_⟩
  intro scheduled hok
  rw [hpass] at hok
  cases hok

/-- C10 witness: one registered node `n1` hosting chunk `c1` whose
metadata is recorded - the sweep pass aborts with `AttributeError`. -/
theorem monitor_replication_sweep_attribute_error_witness :
    monitorReplicationPass oneNodeOneChunkState oneFileOneChunkState =
      .error .attributeError :=
  (monitor_replication_sweep_attribute_error oneNodeOneChunkState oneFileOneChunkState
    "c1" ["n1"] "n1" (by decide) (by decide) (by decide) (by decide)).2.1

/-- Stability kernel of the placement sort: `orderedInsert` under
`availGe` preserves the subsequence of entries with any fixed available
space `v`, except for putting the inserted element first when its space
is `v`. -/
theorem filter_orderedInsert_availGe (v : Nat) (x : String × Nat)
    (l : List (String × Nat)) :
    (List.orderedInsert availGe x l).filter (fun p => p.2 == v) =
      if x.2 == v then x :: l.filter (fun p => p.2 == v)
      else l.filter (fun p => p.2 == v) := by
  induction l with
  | nil =>
      by_cases hx : x.2 = v <;> simp [List.orderedInsert, hx]
  | cons b t ih =>
      by_cases hr : availGe x b
      · by_cases hx : x.2 = v <;> simp [List.orderedInsert, hr, hx]
      · have hlt : x.2 < b.2 := Nat.lt_of_not_le hr
        by_cases hx : x.2 = v
        · have hb : ¬ b.2 = v := by omega
          simp [List.orderedInsert, hr, hx, hb, ih]
        · by_cases hb : b.2 = v <;> simp [List.orderedInsert, hr, hx, hb, ih]

/-- Stability of the placement sort: entries with equal available space
appear in the sorted list exactly in their original (registration)
order. -/
theorem filter_insertionSort_availGe (v : Nat) (l : List (String × Nat)) :
    (List.insertionSort availGe l).filter (fun p => p.2 == v) =
      l.filter (fun p => p.2 == v) := by
  induction l with
  | nil => rfl
  | cons x t ih =>
      simp only [List.insertionSort, filter_orderedInsert_availGe, ih]
      by_cases hx : x.2 = v <;> simp [hx]

/-- `dictUpdate` never changes which keys are present. -/
theorem containsKey_dictUpdate (m : List (String × α)) (k k' : String) (f : α → α) :
    containsKey (dictUpdate m k f) k' = containsKey m k' := by
  simp only [containsKey, dictGet_dictUpdate]
  by_cases h : k' = k <;> simp [h]

/-- The `node_to_chunks[node_id].add(chunk_id)` loop of `allocate_chunk`
succeeds when every selected node has an entry. -/
theorem nodeToChunksAddLoop_ok (m : List (String × List String)) (nodes : List String)
    (cid : String) (h : ∀ n ∈ nodes, containsKey m n = true) :
    ∃ m', nodeToChunksAddLoop m nodes cid = .ok m' := by
  induction nodes generalizing m with
  | nil => exact ⟨m, rfl⟩
  | cons a rest ih =>
      have ha := h a (by simp)
      have hrest : ∀ n ∈ rest,
          containsKey (dictUpdate m a (fun s => setAdd s cid)) n = true := by
        intro n hn
        rw [containsKey_dictUpdate]
        exact h n (by simp [hn])
      obtain ⟨m', hm'⟩ := ih _ hrest
      exact ⟨m', by simp [nodeToChunksAddLoop, ha, hm']⟩

/-- Every node id returned by the placement comes from a node-table entry
that is alive with enough available space. -/
theorem mem_select_qualifies (st : CMState) (size rf : Nat) (nid : String)
    (h : nid ∈ select_datanodes_for_chunk st size rf) :
    ∃ p ∈ st.datanodes, p.1 = nid ∧ p.2.is_alive = true ∧ size ≤ p.2.available_space := by
  simp only [select_datanodes_for_chunk] at h
  obtain ⟨pair, hmem, hfst⟩ := List.mem_map.mp h
  have h2 : pair ∈ List.insertionSort availGe (qualifyingNodes st size) :=
    List.mem_of_mem_take hmem
  have h3 : pair ∈ qualifyingNodes st size := (List.mem_insertionSort availGe).mp h2
  simp only [qualifyingNodes, List.mem_filterMap] at h3
  obtain ⟨p, hp, hcond⟩ := h3
  by_cases hc : p.2.is_alive = true ∧ size ≤ p.2.available_space
  · rw [if_pos hc] at hcond
    refine ⟨p, hp, ?_, hc.1, hc.2⟩
    have : p.1 = pair.1 := by rw [← Option.some.inj hcond]
    rw [this, hfst]
  · rw [if_neg hc] at hcond
    cases hcond

/-- C2 (amended).  `_select_datanodes_for_chunk` returns the node ids
obtained by filtering the node table (in registration order) down to the
alive nodes with `available_space >= size`, stable-sorting by available
space descending - ties therefore stay in registration order, not node-ID
order - and taking the first `replication_factor`: the sorted list is a
permutation of the qualifying list, is nonincreasing in available space,
and preserves the original relative order of entries with equal space;
when fewer nodes qualify than requested the whole (shorter) qualifying
list is returned and `allocate_chunk` still creates the chunk under its
fresh id. -/
theorem select_datanodes_characterization (st : CMState) (size rf : Nat) (cid : String)
    (wf : ∀ p ∈ st.datanodes, containsKey st.node_to_chunks p.1 = true) :
    select_datanodes_for_chunk st size rf =
      ((List.insertionSort availGe (qualifyingNodes st size)).take rf).map Prod.fst ∧
    (List.insertionSort availGe (qualifyingNodes st size)).Perm (qualifyingNodes st size) ∧
    (List.insertionSort availGe (qualifyingNodes st size)).Sorted availGe ∧
    (∀ v, (List.insertionSort availGe (qualifyingNodes st size)).filter (fun p => p.2 == v) =
      (qualifyingNodes st size).filter (fun p => p.2 == v)) ∧
    (select_datanodes_for_chunk st size rf).length = min rf (qualifyingNodes st size).length ∧
    (∀ nid ∈ select_datanodes_for_chunk st size rf,
      ∃ p ∈ st.datanodes, p.1 = nid ∧ p.2.is_alive = true ∧ size ≤ p.2.available_space) ∧
    (∃ st', allocate_chunk st cid size rf =
        .ok ((cid, select_datanodes_for_chunk st size rf), st') ∧
      dictGet st'.chunk_to_nodes cid =
        some (setOfList (select_datanodes_for_chunk st size rf))) := by
  refine ⟨rfl, List.perm_insertionSort availGe _, List.sorted_insertionSort availGe _,
    fun v => filter_insertionSort_availGe v _, ?_, fun nid h => mem_select_qualifies st size rf nid h, ?_⟩
  · simp [select_datanodes_for_chunk, List.length_take, List.length_insertionSort,
      Nat.min_comm]
  · have hsel : ∀ n ∈ select_datanodes_for_chunk st size rf,
        containsKey st.node_to_chunks n = true := by
      intro n hn
      obtain ⟨p, hp, hfst, _, _⟩ := mem_select_qualifies st size rf n hn
      rw [← hfst]
      exact wf p hp
    obtain ⟨m', hm'⟩ := nodeToChunksAddLoop_ok st.node_to_chunks
      (select_datanodes_for_chunk st size rf) cid hsel
    refine ⟨{ st with
                chunk_to_nodes := dictSet st.chunk_to_nodes cid
                  (setOfList (select_datanodes_for_chunk st size rf)),
                node_to_chunks := m' }, ?_, ?_⟩
    · simp only [allocate_chunk, hm']
    · exact dictGet_dictSet_self _ _ _

/-- C2 witness: two qualifying nodes, replication factor 3 - the shorter
list is selected and the chunk is still created. -/
theorem select_datanodes_characterization_witness :
    (select_datanodes_for_chunk twoNodesTieState 1 3).length =
      min 3 (qualifyingNodes twoNodesTieState 1).length ∧
    (∃ st', allocate_chunk twoNodesTieState "c9" 1 3 =
        .ok (("c9", select_datanodes_for_chunk twoNodesTieState 1 3), st') ∧
      dictGet st'.chunk_to_nodes "c9" =
        some (setOfList (select_datanodes_for_chunk twoNodesTieState 1 3))) := by
  have h := select_datanodes_characterization twoNodesTieState 1 3 "c9" (by decide)
  exact ⟨h.2.2.2.2.1, h.2.2.2.2.2.2⟩

end DFS
